import Mathlib

/-!
# Source-file stack and source positions of dtc (`srcpos.c`)

A shallow embedding of `srcpos.c`: the include stack (`srcfile_relative_open`,
`srcfile_push`, `srcfile_pop`) and the rendering of source positions
(`srcpos_string`).

Conventions of the embedding.

* A C string (`char *`) that may be `NULL` is an `Option String`; a string that the
  code never tests against `NULL` is a `String`.
* `struct srcfile_state *` is the type `srcfile_state_ptr`: either `NULL` or a
  reference to a record with the fields `f`, `name`, `dir`, `prev`.  Records are never
  written after `srcfile_push` has filled them in, so a reference is modelled by the
  record's contents.
* The two globals `current_srcfile` and `srcfile_depth` are the fields of `World`,
  together with a trace of the `fopen`/`fclose` calls made so far.
* The C library and the file system are the oracle `Env`.
* A call returns the world it leaves behind and either a value or a `Fault`:
  `die` (message printed, process exits), a failed `assert`, a `NULL` dereference, or
  (in the memory-level embedding only) a read through a pointer to no object.
* `int` values are `Int`; the only arithmetic is `srcfile_depth++`.
* `xmalloc` and `xstrdup` never return `NULL`, and the storage they hand out is not
  modelled; the one allocation whose failure the code handles is the final `asprintf`
  of `srcpos_string`, which is a parameter there.
* Namespace `Mem` holds a second, memory-level embedding of the same functions, in
  which file records and positions are objects at addresses and pointers are
  `Option Nat`.  It is used for the statements about what a call writes in memory.
-/

namespace Srcpos

/-! ## C library and environment -/

/-- A `FILE *` that is not `NULL`: the standard input or a stream returned by `fopen`. -/
inductive FILE where
  | stdin
  | stream (id : Nat)
  deriving DecidableEq, Repr

/-- Calls into the file system, in the order they were made. -/
inductive Event where
  | fopen (path : String)
  | fclose (f : FILE)
  deriving DecidableEq, Repr

/-- What the C library answers.  Each answer may depend on the calls made before it.
`fopen` gives `none` for `NULL`; `fclose` gives `0` on success; `strerror_errno` is the
text of `strerror(errno)`. -/
structure Env where
  fopen : List Event → String → Option FILE
  fclose : List Event → FILE → Int
  strerror_errno : List Event → String

/-- How a call can end without returning. -/
inductive Fault where
  | die (msg : String)
  | assert_failed (expr : String)
  | null_deref
  | bad_pointer
  deriving DecidableEq, Repr

/-- Equality of results is decidable, so closed instances can be evaluated. -/
instance instDecEqExcept {ε α : Type} [DecidableEq ε] [DecidableEq α] : DecidableEq (Except ε α)
  | .ok a, .ok b => if h : a = b then isTrue (by rw [h]) else isFalse (fun e => h (by cases e; rfl))
  | .error a, .error b =>
    if h : a = b then isTrue (by rw [h]) else isFalse (fun e => h (by cases e; rfl))
  | .ok _, .error _ => isFalse (fun e => by cases e)
  | .error _, .ok _ => isFalse (fun e => by cases e)

/-- Macro `streq(a, b)` of `dtc.h`: `strcmp(a, b) == 0`. -/
def streq (a b : String) : Bool := decide (a = b)

/-- Index of the last occurrence of `c` in `path`, as `strrchr` finds it. -/
def strrchr : List Char → Char → Option Nat
  | [], _ => none
  | x :: xs, c =>
    match strrchr xs c with
    | some i => some (i + 1)
    | none => if x = c then some 0 else none

/-- Modelled from the spec: `join_path` is defined in `util.c`, which is not part of the
sources at hand.  The spec asks for the directory joined with the file name, using a
single separator character and no normalisation: the separator is added unless the
directory already ends with it. -/
def join_path (path name : String) : String :=
  if path.data.getLast? = some '/' then path ++ name else path ++ "/" ++ name

/-- The text `snprintf(buf, size, ...)` leaves in `buf` when the formatted text is `s`:
at most `size - 1` characters are kept. -/
def snprintf (size : Nat) (s : String) : String := String.mk (s.data.take (size - 1))

/-- Conversion `%d` of `printf`: decimal digits, with a leading `-` for a negative
number. -/
def fmt_d (i : Int) : String := toString i

/-- Smallest value of a 32-bit `int`. -/
def INT_MIN : Int := -2147483648

/-- Largest value of a 32-bit `int`. -/
def INT_MAX : Int := 2147483647

/-- The integer is a value of the C type `int`. -/
def is_int (i : Int) : Prop := INT_MIN ≤ i ∧ i ≤ INT_MAX

instance (i : Int) : Decidable (is_int i) := by
  unfold is_int; exact inferInstance

/-! ## Data model (`srcpos.h`) -/

/-- A value of type `struct srcfile_state *`. -/
inductive srcfile_state_ptr where
  | NULL
  | ref (f : FILE) (name : Option String) (dir : Option String) (prev : srcfile_state_ptr)
  deriving DecidableEq, Repr

/-- The struct `srcpos`. -/
structure srcpos where
  first_line : Int
  first_column : Int
  last_line : Int
  last_column : Int
  file : srcfile_state_ptr
  deriving DecidableEq, Repr

/-- All four line and column fields are values of the C type `int`. -/
def srcpos.in_range (p : srcpos) : Prop :=
  is_int p.first_line ∧ is_int p.first_column ∧ is_int p.last_line ∧ is_int p.last_column

instance (p : srcpos) : Decidable p.in_range := by
  unfold srcpos.in_range; exact inferInstance

/-- The globals of `srcpos.c` and the trace of file-system calls. -/
structure World where
  current_srcfile : srcfile_state_ptr
  srcfile_depth : Int
  trace : List Event
  deriving DecidableEq, Repr

/-- State at program start: both globals are zero-initialised. -/
def World.init : World := { current_srcfile := .NULL, srcfile_depth := 0, trace := [] }

/-- Number of records on the chain that starts at the pointer and follows `prev`. -/
def chain_len : srcfile_state_ptr → Nat
  | .NULL => 0
  | .ref _ _ _ prev => chain_len prev + 1

/-- Field `dir` of the current source file; `none` when there is no current file or
its `dir` is `NULL`. -/
def current_dir (w : World) : Option String :=
  match w.current_srcfile with
  | .NULL => none
  | .ref _ _ dir _ => dir

/-! ## The include stack -/

/-- Function `dirname` (lines 28-41): the text before the last slash, `NULL` without
a slash. -/
def dirname (path : String) : Option String :=
  match strrchr path.data '/' with
  | some len => some (String.mk (path.data.take len))
  | none => none

/-- The constant `MAX_SRCFILE_DEPTH`. -/
def MAX_SRCFILE_DEPTH : Int := 100

/-- The value the local `fullname` gets on lines 58-62. -/
def fullname_of (w : World) (fname : String) : String :=
  match w.current_srcfile with
  | .NULL => fname
  | .ref _ _ none _ => fname
  | .ref _ _ (some dir) _ =>
    if fname.data.head? = some '/' then fname else join_path dir fname

/-- Function `srcfile_relative_open` (lines 49-76).  `fullnamep` tells whether the
caller passed a place for the full name; the second component of the value is what is
stored there. -/
def srcfile_relative_open (env : Env) (fname : String) (fullnamep : Bool) (w : World) :
    World × Except Fault (FILE × Option String) :=
  if streq fname "-" then
    (w, .ok (FILE.stdin, if fullnamep then some "<stdin>" else none))
  else
    let fullname := fullname_of w fname
    let w1 := { w with trace := w.trace ++ [Event.fopen fullname] }
    match env.fopen w.trace fullname with
    | none =>
      (w1, .error (.die ("Couldn't open \"" ++ fname ++ "\": "
        ++ env.strerror_errno w1.trace ++ "\n")))
    | some f => (w1, .ok (f, if fullnamep then some fullname else none))

/-- Function `srcfile_push` (lines 78-91).  The counter is incremented by the test
itself, whichever way the test goes. -/
def srcfile_push (env : Env) (fname : String) (w : World) : World × Except Fault Unit :=
  let w1 := { w with srcfile_depth := w.srcfile_depth + 1 }
  if w.srcfile_depth ≥ MAX_SRCFILE_DEPTH then
    (w1, .error (.die "Includes nested too deeply"))
  else
    match srcfile_relative_open env fname true w1 with
    | (w2, .error e) => (w2, .error e)
    | (w2, .ok (f, name)) =>
      match name with
      | none => (w2, .error .null_deref)
      | some n =>
        ({ w2 with current_srcfile := .ref f name (dirname n) w2.current_srcfile }, .ok ())

/-- Function `srcfile_pop` (lines 93-111). -/
def srcfile_pop (env : Env) (w : World) : World × Except Fault Int :=
  match w.current_srcfile with
  | .NULL => (w, .error (.assert_failed "srcfile"))
  | .ref f name _ prev =>
    let w1 := { w with current_srcfile := prev, trace := w.trace ++ [Event.fclose f] }
    if env.fclose w.trace f ≠ 0 then
      (w1, .error (.die ("Error closing \"" ++ name.getD "(null)" ++ "\": "
        ++ env.strerror_errno w1.trace ++ "\n")))
    else
      (w1, .ok (if w1.current_srcfile = .NULL then 0 else 1))

/-! ## Source positions -/

/-- The constant `srcpos_empty` (lines 117-123). -/
def srcpos_empty : srcpos :=
  (srcpos.mk 0 0 0 0 (.NULL))

/-- Lines 158-166 of `srcpos_string`: the choice of `fname`.  Reading `pos->file->name`
through a `NULL` `pos->file` is a `NULL` dereference. -/
def srcpos_string_fname (pos : Option srcpos) : Except Fault String :=
  match pos with
  | none => .ok "<no-file>"
  | some p =>
    match p.file with
    | .NULL => .error .null_deref
    | .ref _ (some name) _ _ => .ok (if name = "-" then "stdin" else name)
    | .ref _ none _ _ => .ok "<no-file>"

/-- Lines 168-185 of `srcpos_string`: what the three `snprintf` calls leave in the
100-byte `col_buf`. -/
def srcpos_string_col_buf (p : srcpos) : String :=
  if p.first_line = p.last_line then
    if p.first_column = p.last_column then
      snprintf 100 (fmt_d p.first_line ++ ":" ++ fmt_d p.first_column)
    else
      snprintf 100 (fmt_d p.first_line ++ ":" ++ fmt_d p.first_column ++ "-"
        ++ fmt_d p.last_column)
  else
    snprintf 100 (fmt_d p.first_line ++ ":" ++ fmt_d p.first_column ++ " - "
      ++ fmt_d p.last_line ++ ":" ++ fmt_d p.last_column)

/-- Function `srcpos_string` (lines 151-191).  `asprintf_ok` tells whether the final
`asprintf` succeeds.  After `fname` is chosen the code reads `pos->first_line`, which
is a `NULL` dereference when `pos` is `NULL`. -/
def srcpos_string (asprintf_ok : Bool) (pos : Option srcpos) : Except Fault String :=
  match srcpos_string_fname pos with
  | .error e => .error e
  | .ok fname =>
    match pos with
    | none => .error .null_deref
    | some p =>
      if asprintf_ok then .ok (fname ++ " " ++ srcpos_string_col_buf p)
      else .ok "<unknown source position?"

/-! ## Sequences of calls -/

/-- One `srcfile_push` per name, in order, stopping at the first fault. -/
def push_all (env : Env) : List String → World → World × Except Fault Unit
  | [], w => (w, .ok ())
  | fname :: rest, w =>
    match srcfile_push env fname w with
    | (w1, .error e) => (w1, .error e)
    | (w1, .ok ()) => push_all env rest w1

/-- The given number of `srcfile_pop` calls, stopping at the first fault; the value is
the list of the values returned, in order. -/
def pop_n (env : Env) : Nat → World → World × Except Fault (List Int)
  | 0, w => (w, .ok [])
  | n + 1, w =>
    match srcfile_pop env w with
    | (w1, .error e) => (w1, .error e)
    | (w1, .ok r) =>
      match pop_n env n w1 with
      | (w2, .error e) => (w2, .error e)
      | (w2, .ok rs) => (w2, .ok (r :: rs))

/-- An environment in which every `fopen` and every `fclose` succeeds. -/
def Env.always_ok (env : Env) : Prop :=
  (∀ tr path, (env.fopen tr path).isSome = true) ∧ (∀ tr f, env.fclose tr f = 0)

/-- A concrete environment: `fopen` numbers the streams by the length of the trace,
`fclose` succeeds. -/
def Env.simple : Env :=
  { fopen := fun tr _ => some (.stream tr.length)
    fclose := fun _ _ => 0
    strerror_errno := fun _ => "No such file or directory" }

/-- A concrete environment with an empty file system: every `fopen` fails. -/
def Env.no_files : Env :=
  { fopen := fun _ _ => none
    fclose := fun _ _ => 0
    strerror_errno := fun _ => "No such file or directory" }

/-- One call of the include stack's interface. -/
inductive Call where
  | push (fname : String)
  | pop
  deriving DecidableEq, Repr

/-- The calls in order, stopping at the first fault: a fault ends the process. -/
def run_calls (env : Env) : List Call → World → World × Except Fault Unit
  | [], w => (w, .ok ())
  | .push fname :: rest, w =>
    match srcfile_push env fname w with
    | (w1, .error e) => (w1, .error e)
    | (w1, .ok ()) => run_calls env rest w1
  | .pop :: rest, w =>
    match srcfile_pop env w with
    | (w1, .error e) => (w1, .error e)
    | (w1, .ok _) => run_calls env rest w1

/-- Number of `srcfile_push` calls in a sequence of calls. -/
def count_push : List Call → Nat
  | [] => 0
  | .push _ :: rest => count_push rest + 1
  | .pop :: rest => count_push rest

/-- A state with one current source file "/a/b/x.dts", as a push from the initial
state leaves it. -/
def World.in_a_b : World :=
  { current_srcfile := .ref (.stream 0) (some "/a/b/x.dts") (some "/a/b") .NULL
    srcfile_depth := 1
    trace := [Event.fopen "/a/b/x.dts"] }

/-- One hundred times a `srcfile_push` of "a.dts" followed by a `srcfile_pop`. -/
def hundred_push_pop : List Call :=
  (List.replicate 100 [Call.push "a.dts", Call.pop]).flatten

/-! ## Memory-level embedding

File records and positions are objects in two stores; the address of an object is its
index in the store, and `xmalloc` hands out the next free index.  Nothing is ever
freed: `srcpos.c` calls `free` only on the full name that `srcfile_relative_open`
drops when `fullnamep` is `NULL`. -/

namespace Mem

/-- The struct `srcfile_state`; `prev` is a pointer. -/
structure srcfile_state where
  f : FILE
  name : Option String
  dir : Option String
  prev : Option Nat
  deriving DecidableEq, Repr

/-- The struct `srcpos`; `file` is a pointer. -/
structure srcpos where
  first_line : Int
  first_column : Int
  last_line : Int
  last_column : Int
  file : Option Nat
  deriving DecidableEq, Repr

/-- Memory and globals: the file records, the positions, `current_srcfile`,
`srcfile_depth` and the trace of file-system calls. -/
structure World where
  files : List srcfile_state
  positions : List srcpos
  current_srcfile : Option Nat
  srcfile_depth : Int
  trace : List Event
  deriving DecidableEq, Repr

/-- State at program start. -/
def World.init : World :=
  { files := [], positions := [], current_srcfile := none, srcfile_depth := 0, trace := [] }

/-- Lines 64-75 of `srcfile_relative_open`: `fopen` of the full name, `die` on
failure. -/
def fopen_or_die (env : Env) (fname fullname : String) (fullnamep : Bool) (w : World) :
    World × Except Fault (FILE × Option String) :=
  let w1 := { w with trace := w.trace ++ [Event.fopen fullname] }
  match env.fopen w.trace fullname with
  | none =>
    (w1, .error (.die ("Couldn't open \"" ++ fname ++ "\": "
      ++ env.strerror_errno w1.trace ++ "\n")))
  | some f => (w1, .ok (f, if fullnamep then some fullname else none))

/-- Function `srcfile_relative_open` (lines 49-76). -/
def srcfile_relative_open (env : Env) (fname : String) (fullnamep : Bool) (w : World) :
    World × Except Fault (FILE × Option String) :=
  if streq fname "-" then
    (w, .ok (FILE.stdin, if fullnamep then some "<stdin>" else none))
  else
    match w.current_srcfile with
    | none => fopen_or_die env fname fname fullnamep w
    | some a =>
      match w.files[a]? with
      | none => (w, .error .bad_pointer)
      | some cur =>
        match cur.dir with
        | none => fopen_or_die env fname fname fullnamep w
        | some dir =>
          if fname.data.head? = some '/' then fopen_or_die env fname fname fullnamep w
          else fopen_or_die env fname (join_path dir fname) fullnamep w

/-- Function `srcfile_push` (lines 78-91).  The new record gets the next free address;
it is entered in the store once its fields are filled in. -/
def srcfile_push (env : Env) (fname : String) (w : World) : World × Except Fault Unit :=
  let w1 := { w with srcfile_depth := w.srcfile_depth + 1 }
  if w.srcfile_depth ≥ MAX_SRCFILE_DEPTH then
    (w1, .error (.die "Includes nested too deeply"))
  else
    match srcfile_relative_open env fname true w1 with
    | (w2, .error e) => (w2, .error e)
    | (w2, .ok (f, name)) =>
      match name with
      | none => (w2, .error .null_deref)
      | some n =>
        ({ w2 with
            files := w2.files ++ [srcfile_state.mk f name (dirname n) w2.current_srcfile]
            current_srcfile := some w2.files.length }, .ok ())

/-- Function `srcfile_pop` (lines 93-111). -/
def srcfile_pop (env : Env) (w : World) : World × Except Fault Int :=
  match w.current_srcfile with
  | none => (w, .error (.assert_failed "srcfile"))
  | some a =>
    match w.files[a]? with
    | none => (w, .error .bad_pointer)
    | some cur =>
      let w1 := { w with current_srcfile := cur.prev, trace := w.trace ++ [Event.fclose cur.f] }
      if env.fclose w.trace cur.f ≠ 0 then
        (w1, .error (.die ("Error closing \"" ++ cur.name.getD "(null)" ++ "\": "
          ++ env.strerror_errno w1.trace ++ "\n")))
      else
        (w1, .ok (if w1.current_srcfile = none then 0 else 1))

/-- Function `srcpos_copy` (lines 125-134): a new object at the next free address,
filled by `memcpy` from `pos`.  The value is the address of the new object. -/
def srcpos_copy (pos : Option Nat) (w : World) : World × Except Fault Nat :=
  match pos with
  | none => (w, .error .null_deref)
  | some a =>
    match w.positions[a]? with
    | none => (w, .error .bad_pointer)
    | some v => ({ w with positions := w.positions ++ [v] }, .ok w.positions.length)

/-- An assignment through a pointer to a position: the object at the address is
replaced. -/
def store_srcpos (a : Nat) (v : srcpos) (w : World) : World :=
  { w with positions := w.positions.set a v }

/-- Lines 158-166 of `srcpos_string`: the choice of `fname`. -/
def srcpos_string_fname (pos : Option Nat) (w : World) : Except Fault String :=
  match pos with
  | none => .ok "<no-file>"
  | some a =>
    match w.positions[a]? with
    | none => .error .bad_pointer
    | some p =>
      match p.file with
      | none => .error .null_deref
      | some fa =>
        match w.files[fa]? with
        | none => .error .bad_pointer
        | some file =>
          match file.name with
          | some name => .ok (if name = "-" then "stdin" else name)
          | none => .ok "<no-file>"

/-- Lines 168-185 of `srcpos_string`: what the three `snprintf` calls leave in the
100-byte `col_buf`. -/
def srcpos_string_col_buf (p : srcpos) : String :=
  if p.first_line = p.last_line then
    if p.first_column = p.last_column then
      snprintf 100 (fmt_d p.first_line ++ ":" ++ fmt_d p.first_column)
    else
      snprintf 100 (fmt_d p.first_line ++ ":" ++ fmt_d p.first_column ++ "-"
        ++ fmt_d p.last_column)
  else
    snprintf 100 (fmt_d p.first_line ++ ":" ++ fmt_d p.first_column ++ " - "
      ++ fmt_d p.last_line ++ ":" ++ fmt_d p.last_column)

/-- Function `srcpos_string` (lines 151-191).  It is given the whole state, as the C
function can read every global. -/
def srcpos_string (asprintf_ok : Bool) (pos : Option Nat) (w : World) :
    Except Fault String :=
  match srcpos_string_fname pos w with
  | .error e => .error e
  | .ok fname =>
    match pos with
    | none => .error .null_deref
    | some a =>
      match w.positions[a]? with
      | none => .error .bad_pointer
      | some p =>
        if asprintf_ok then .ok (fname ++ " " ++ srcpos_string_col_buf p)
        else .ok "<unknown source position?"

/-- A concrete memory: "foo.dts" has been pushed from the initial state, and one
position (line 3, columns 1 to 5) was recorded in it at address 0. -/
def World.sample : World :=
  { files := [srcfile_state.mk (.stream 0) (some "foo.dts") none none]
    positions := [srcpos.mk 3 1 3 5 (some 0)]
    current_srcfile := some 0
    srcfile_depth := 1
    trace := [Event.fopen "foo.dts"] }

end Mem

/-! ## Auxiliary facts -/

theorem snprintf_of_length_le (s : String) (h : s.length ≤ 99) : snprintf 100 s = s := by
  cases s with
  | mk data =>
    simp only [String.length] at h
    simp [snprintf, List.take_of_length_le h]

theorem fmt_d_length (i : Int) (h : is_int i) : (fmt_d i).length ≤ 11 := by
  obtain ⟨hlo, hhi⟩ := h
  unfold INT_MIN at hlo
  unfold INT_MAX at hhi
  cases i with
  | ofNat m =>
    have hm : m < 10 ^ 10 := by
      have : (m : Int) ≤ 2147483647 := hhi
      omega
    have := Nat.repr_length m 10 (by decide) hm
    show (Nat.repr m).length ≤ 11
    omega
  | negSucc m =>
    have hm : m + 1 < 10 ^ 10 := by
      have : Int.negSucc m ≥ -2147483648 := hlo
      rw [Int.negSucc_eq] at this
      omega
    have := Nat.repr_length (m + 1) 10 (by decide) hm
    show ("-" ++ Nat.repr (m + 1)).length ≤ 11
    rw [String.length_append]
    have h1 : "-".length = 1 := by decide
    omega


theorem srcfile_relative_open_of_fopen_none (env : Env) (fname : String) (b : Bool)
    (w : World) (hname : fname ≠ "-")
    (h : env.fopen w.trace (fullname_of w fname) = none) :
    srcfile_relative_open env fname b w
      = ({ w with trace := w.trace ++ [Event.fopen (fullname_of w fname)] },
          .error (.die ("Couldn't open \"" ++ fname ++ "\": "
            ++ env.strerror_errno (w.trace ++ [Event.fopen (fullname_of w fname)])
            ++ "\n"))) := by
  have hs : streq fname "-" = false := by simp [streq, hname]
  simp [srcfile_relative_open, hs, h]

theorem srcfile_relative_open_of_fopen_some (env : Env) (fname : String) (b : Bool)
    (w : World) (f : FILE) (hname : fname ≠ "-")
    (h : env.fopen w.trace (fullname_of w fname) = some f) :
    srcfile_relative_open env fname b w
      = ({ w with trace := w.trace ++ [Event.fopen (fullname_of w fname)] },
          .ok (f, if b then some (fullname_of w fname) else none)) := by
  have hs : streq fname "-" = false := by simp [streq, hname]
  simp [srcfile_relative_open, hs, h]

theorem srcfile_relative_open_dash (env : Env) (b : Bool) (w : World) :
    srcfile_relative_open env "-" b w
      = (w, .ok (FILE.stdin, if b then some "<stdin>" else none)) := by
  simp [srcfile_relative_open, streq]

theorem srcfile_push_too_deep (env : Env) (fname : String) (w : World)
    (h : 100 ≤ w.srcfile_depth) :
    srcfile_push env fname w
      = ({ w with srcfile_depth := w.srcfile_depth + 1 },
          .error (.die "Includes nested too deeply")) := by
  simp [srcfile_push, MAX_SRCFILE_DEPTH, h]

theorem srcfile_push_dash (env : Env) (w : World) (h : w.srcfile_depth < 100) :
    srcfile_push env "-" w
      = ({ current_srcfile := .ref FILE.stdin (some "<stdin>") none w.current_srcfile
           srcfile_depth := w.srcfile_depth + 1
           trace := w.trace }, .ok ()) := by
  have hd : ¬ (w.srcfile_depth ≥ MAX_SRCFILE_DEPTH) := by
    unfold MAX_SRCFILE_DEPTH; omega
  have hdir : dirname "<stdin>" = none := by decide
  simp [srcfile_push, hd, srcfile_relative_open_dash, hdir]

theorem srcfile_push_of_fopen_some (env : Env) (fname : String) (w : World) (f : FILE)
    (h : w.srcfile_depth < 100) (hname : fname ≠ "-")
    (hf : env.fopen w.trace (fullname_of w fname) = some f) :
    srcfile_push env fname w
      = ({ current_srcfile := .ref f (some (fullname_of w fname))
             (dirname (fullname_of w fname)) w.current_srcfile
           srcfile_depth := w.srcfile_depth + 1
           trace := w.trace ++ [Event.fopen (fullname_of w fname)] }, .ok ()) := by
  have hd : ¬ (w.srcfile_depth ≥ MAX_SRCFILE_DEPTH) := by
    unfold MAX_SRCFILE_DEPTH; omega
  have hfull : fullname_of { w with srcfile_depth := w.srcfile_depth + 1 } fname
      = fullname_of w fname := rfl
  have hopen := srcfile_relative_open_of_fopen_some env fname true
    { w with srcfile_depth := w.srcfile_depth + 1 } f hname (by rw [hfull]; exact hf)
  rw [hfull] at hopen
  simp [srcfile_push, hd, hopen]

theorem srcfile_push_of_fopen_none (env : Env) (fname : String) (w : World)
    (h : w.srcfile_depth < 100) (hname : fname ≠ "-")
    (hf : env.fopen w.trace (fullname_of w fname) = none) :
    srcfile_push env fname w
      = ({ current_srcfile := w.current_srcfile
           srcfile_depth := w.srcfile_depth + 1
           trace := w.trace ++ [Event.fopen (fullname_of w fname)] },
          .error (.die ("Couldn't open \"" ++ fname ++ "\": "
            ++ env.strerror_errno (w.trace ++ [Event.fopen (fullname_of w fname)])
            ++ "\n"))) := by
  have hd : ¬ (w.srcfile_depth ≥ MAX_SRCFILE_DEPTH) := by
    unfold MAX_SRCFILE_DEPTH; omega
  have hfull : fullname_of { w with srcfile_depth := w.srcfile_depth + 1 } fname
      = fullname_of w fname := rfl
  have hopen := srcfile_relative_open_of_fopen_none env fname true
    { w with srcfile_depth := w.srcfile_depth + 1 } hname (by rw [hfull]; exact hf)
  rw [hfull] at hopen
  simp [srcfile_push, hd, hopen]

theorem couldnt_open_ne_too_deep (a : String) :
    "Couldn't open \"" ++ a ≠ "Includes nested too deeply" := by
  intro h
  have h2 := congrArg String.data h
  simp at h2

theorem srcfile_push_ok_shape (env : Env) (fname : String) (w w1 : World)
    (h : srcfile_push env fname w = (w1, .ok ())) :
    w.srcfile_depth < 100
    ∧ w1.srcfile_depth = w.srcfile_depth + 1
    ∧ ∃ f name dir, w1.current_srcfile = .ref f name dir w.current_srcfile := by
  by_cases hd : w.srcfile_depth < 100
  · refine ⟨hd, ?_⟩
    by_cases hname : fname = "-"
    · subst hname
      rw [srcfile_push_dash env w hd] at h
      have hw := (Prod.mk.inj h).1
      subst hw
      exact ⟨rfl, _, _, _, rfl⟩
    · cases hf : env.fopen w.trace (fullname_of w fname) with
      | some f =>
        rw [srcfile_push_of_fopen_some env fname w f hd hname hf] at h
        have hw := (Prod.mk.inj h).1
        subst hw
        exact ⟨rfl, _, _, _, rfl⟩
      | none =>
        rw [srcfile_push_of_fopen_none env fname w hd hname hf] at h
        have hr := (Prod.mk.inj h).2
        cases hr
  · rw [srcfile_push_too_deep env fname w (by omega)] at h
    have hr := (Prod.mk.inj h).2
    cases hr

theorem srcfile_push_ok_of_always_ok (env : Env) (henv : env.always_ok) (fname : String)
    (w : World) (hd : w.srcfile_depth < 100) :
    ∃ w1, srcfile_push env fname w = (w1, .ok ()) := by
  by_cases hname : fname = "-"
  · subst hname
    exact ⟨_, srcfile_push_dash env w hd⟩
  · cases hf : env.fopen w.trace (fullname_of w fname) with
    | some f => exact ⟨_, srcfile_push_of_fopen_some env fname w f hd hname hf⟩
    | none =>
      have := henv.1 w.trace (fullname_of w fname)
      rw [hf] at this
      cases this

theorem srcfile_pop_of_fclose_ok (env : Env) (w : World) (f : FILE)
    (name dir : Option String) (prev : srcfile_state_ptr)
    (hcur : w.current_srcfile = .ref f name dir prev) (hclose : env.fclose w.trace f = 0) :
    srcfile_pop env w
      = ({ w with current_srcfile := prev, trace := w.trace ++ [Event.fclose f] },
          .ok (if prev = .NULL then 0 else 1)) := by
  unfold srcfile_pop
  rw [hcur]
  simp [hclose]

theorem push_all_of_always_ok (env : Env) (henv : env.always_ok) (fnames : List String) :
    ∀ w : World, w.srcfile_depth + fnames.length ≤ 100 →
      ∃ w1, push_all env fnames w = (w1, .ok ())
        ∧ chain_len w1.current_srcfile = chain_len w.current_srcfile + fnames.length
        ∧ w1.srcfile_depth = w.srcfile_depth + fnames.length := by
  induction fnames with
  | nil =>
    intro w _
    exact ⟨w, rfl, by simp, by simp⟩
  | cons fname rest ih =>
    intro w hw
    simp only [List.length_cons, Nat.cast_add, Nat.cast_one] at hw
    obtain ⟨w1, h1⟩ := srcfile_push_ok_of_always_ok env henv fname w (by omega)
    obtain ⟨_, hdepth, f, name, dir, hcur⟩ := srcfile_push_ok_shape env fname w w1 h1
    obtain ⟨w2, h2, hlen, hd2⟩ := ih w1 (by omega)
    refine ⟨w2, ?_, ?_, ?_⟩
    · simp only [push_all, h1, h2]
    · rw [hlen, hcur]
      simp only [chain_len, List.length_cons]
      omega
    · rw [hd2, hdepth]
      simp only [List.length_cons, Nat.cast_add, Nat.cast_one]
      omega

theorem pop_n_of_always_ok (env : Env) (henv : env.always_ok) (n : Nat) :
    ∀ w : World, chain_len w.current_srcfile = n + 1 →
      ∃ w2, pop_n env (n + 1) w = (w2, .ok (List.replicate n 1 ++ [0]))
        ∧ w2.current_srcfile = .NULL ∧ w2.srcfile_depth = w.srcfile_depth := by
  induction n with
  | zero =>
    intro w hw
    cases hcur : w.current_srcfile with
    | NULL => rw [hcur] at hw; simp [chain_len] at hw
    | ref f name dir prev =>
      rw [hcur] at hw
      have hprev : prev = .NULL := by
        cases prev with
        | NULL => rfl
        | ref _ _ _ _ => simp [chain_len] at hw
      subst hprev
      have hpop := srcfile_pop_of_fclose_ok env w f name dir .NULL hcur (henv.2 _ _)
      refine ⟨{ w with current_srcfile := .NULL, trace := w.trace ++ [Event.fclose f] },
        ?_, rfl, rfl⟩
      simp [pop_n, hpop]
  | succ n ih =>
    intro w hw
    cases hcur : w.current_srcfile with
    | NULL => rw [hcur] at hw; simp [chain_len] at hw
    | ref f name dir prev =>
      rw [hcur] at hw
      have hlen : chain_len prev = n + 1 := by
        simp only [chain_len] at hw
        omega
      have hprev : prev ≠ .NULL := by
        intro hp
        rw [hp] at hlen
        simp [chain_len] at hlen
      have hpop := srcfile_pop_of_fclose_ok env w f name dir prev hcur (henv.2 _ _)
      obtain ⟨w2, h2, hnull, hdep⟩ :=
        ih { w with current_srcfile := prev, trace := w.trace ++ [Event.fclose f] } hlen
      refine ⟨w2, ?_, hnull, hdep⟩
      rw [pop_n, hpop]
      simp only [h2, hprev, if_false]
      rfl

theorem Env.simple_always_ok : Env.simple.always_ok :=
  ⟨fun _ _ => rfl, fun _ _ => rfl⟩

theorem col_buf_point (p : srcpos) (h : p.in_range) (hl : p.first_line = p.last_line)
    (hc : p.first_column = p.last_column) :
    srcpos_string_col_buf p = fmt_d p.first_line ++ ":" ++ fmt_d p.first_column := by
  obtain ⟨h1, h2, _, _⟩ := h
  have b1 := fmt_d_length _ h1
  have b2 := fmt_d_length _ h2
  have e1 : ":".length = 1 := rfl
  unfold srcpos_string_col_buf
  rw [if_pos hl, if_pos hc]
  apply snprintf_of_length_le
  simp only [String.length_append]
  omega

theorem col_buf_same_line (p : srcpos) (h : p.in_range) (hl : p.first_line = p.last_line)
    (hc : p.first_column ≠ p.last_column) :
    srcpos_string_col_buf p
      = fmt_d p.first_line ++ ":" ++ fmt_d p.first_column ++ "-" ++ fmt_d p.last_column := by
  obtain ⟨h1, h2, _, h4⟩ := h
  have b1 := fmt_d_length _ h1
  have b2 := fmt_d_length _ h2
  have b4 := fmt_d_length _ h4
  have e1 : ":".length = 1 := rfl
  have e2 : "-".length = 1 := rfl
  unfold srcpos_string_col_buf
  rw [if_pos hl, if_neg hc]
  apply snprintf_of_length_le
  simp only [String.length_append]
  omega

theorem col_buf_multi_line (p : srcpos) (h : p.in_range) (hl : p.first_line ≠ p.last_line) :
    srcpos_string_col_buf p
      = fmt_d p.first_line ++ ":" ++ fmt_d p.first_column ++ " - "
        ++ fmt_d p.last_line ++ ":" ++ fmt_d p.last_column := by
  obtain ⟨h1, h2, h3, h4⟩ := h
  have b1 := fmt_d_length _ h1
  have b2 := fmt_d_length _ h2
  have b3 := fmt_d_length _ h3
  have b4 := fmt_d_length _ h4
  have e1 : ":".length = 1 := rfl
  have e2 : " - ".length = 3 := rfl
  unfold srcpos_string_col_buf
  rw [if_neg hl]
  apply snprintf_of_length_le
  simp only [String.length_append]
  omega

theorem srcpos_string_of_name (p : srcpos) (f : FILE) (n : String) (dir : Option String)
    (prev : srcfile_state_ptr) (hfile : p.file = .ref f (some n) dir prev) :
    srcpos_string true (some p)
      = .ok ((if n = "-" then "stdin" else n) ++ " " ++ srcpos_string_col_buf p) := by
  simp [srcpos_string, srcpos_string_fname, hfile]

theorem srcfile_pop_depth (env : Env) (w : World) :
    (srcfile_pop env w).1.srcfile_depth = w.srcfile_depth := by
  unfold srcfile_pop
  cases w.current_srcfile with
  | NULL => rfl
  | ref f name dir prev =>
    by_cases h : env.fclose w.trace f = 0
    · simp [h]
    · simp [h]

theorem srcfile_push_depth (env : Env) (fname : String) (w : World) :
    (srcfile_push env fname w).1.srcfile_depth = w.srcfile_depth + 1 := by
  by_cases hd : w.srcfile_depth < 100
  · by_cases hname : fname = "-"
    · subst hname
      rw [srcfile_push_dash env w hd]
    · cases hf : env.fopen w.trace (fullname_of w fname) with
      | some f => rw [srcfile_push_of_fopen_some env fname w f hd hname hf]
      | none => rw [srcfile_push_of_fopen_none env fname w hd hname hf]
  · rw [srcfile_push_too_deep env fname w (by omega)]

theorem run_calls_depth (env : Env) (calls : List Call) :
    ∀ w w1 : World, run_calls env calls w = (w1, .ok ()) →
      w1.srcfile_depth = w.srcfile_depth + count_push calls
      ∧ (0 < count_push calls → w.srcfile_depth + count_push calls ≤ 100) := by
  induction calls with
  | nil =>
    intro w w1 h
    have hw := (Prod.mk.inj h).1
    subst hw
    simp [count_push]
  | cons c rest ih =>
    intro w w1 h
    cases c with
    | push fname =>
      cases hp : srcfile_push env fname w with
      | mk wp r =>
        cases r with
        | error e =>
          simp only [run_calls, hp] at h
          cases (Prod.mk.inj h).2
        | ok u =>
          simp only [run_calls, hp] at h
          obtain ⟨hlt, hdep, _⟩ := srcfile_push_ok_shape env fname w wp hp
          obtain ⟨h1, h2⟩ := ih wp w1 h
          simp only [count_push, Nat.cast_add, Nat.cast_one]
          refine ⟨by rw [h1, hdep]; omega, fun _ => ?_⟩
          by_cases hc : 0 < count_push rest
          · have := h2 hc
            rw [hdep] at this
            omega
          · have hz : count_push rest = 0 := by omega
            rw [hz]
            simp only [Nat.cast_zero]
            omega
    | pop =>
      cases hp : srcfile_pop env w with
      | mk wp r =>
        have hdep : wp.srcfile_depth = w.srcfile_depth := by
          have := srcfile_pop_depth env w
          rw [hp] at this
          exact this
        cases r with
        | error e =>
          simp only [run_calls, hp] at h
          cases (Prod.mk.inj h).2
        | ok v =>
          simp only [run_calls, hp] at h
          obtain ⟨h1, h2⟩ := ih wp w1 h
          simp only [count_push]
          rw [hdep] at h1 h2
          exact ⟨h1, h2⟩

theorem strrchr_eq_none_iff (l : List Char) (c : Char) : strrchr l c = none ↔ c ∉ l := by
  induction l with
  | nil => simp [strrchr]
  | cons x xs ih =>
    cases h : strrchr xs c with
    | some j =>
      have hmem : c ∈ xs := by
        by_contra hn
        rw [ih.mpr hn] at h
        cases h
      simp [strrchr, h, hmem]
    | none =>
      have hn : c ∉ xs := ih.mp h
      by_cases hx : x = c
      · simp [strrchr, h, hx]
      · have hx2 : ¬ c = x := fun e => hx e.symm
        simp [strrchr, h, hx, hx2, hn]

theorem strrchr_eq_some (l : List Char) (c : Char) :
    ∀ i, strrchr l c = some i → ∃ rest, l = l.take i ++ c :: rest ∧ c ∉ rest := by
  induction l with
  | nil => intro i h; simp [strrchr] at h
  | cons x xs ih =>
    intro i h
    cases hs : strrchr xs c with
    | some j =>
      simp only [strrchr, hs] at h
      have hi : i = j + 1 := (Option.some.inj h).symm
      subst hi
      obtain ⟨rest, hrest, hnot⟩ := ih j hs
      refine ⟨rest, ?_, hnot⟩
      simp only [List.take_succ_cons, List.cons_append]
      rw [← hrest]
    | none =>
      simp only [strrchr, hs] at h
      by_cases hx : x = c
      · simp only [hx, if_true] at h
        have hi : i = 0 := (Option.some.inj h).symm
        subst hi
        exact ⟨xs, by simp [hx], (strrchr_eq_none_iff xs c).mp hs⟩
      · simp [hx] at h

theorem dirname_eq_none_iff (n : String) : dirname n = none ↔ '/' ∉ n.data := by
  unfold dirname
  cases h : strrchr n.data '/' with
  | none => simpa using (strrchr_eq_none_iff n.data '/').mp h
  | some i =>
    have : ¬ ('/' ∉ n.data) := fun hn => by
      rw [(strrchr_eq_none_iff n.data '/').mpr hn] at h
      cases h
    simpa using this

theorem dirname_eq_some (n d : String) (h : dirname n = some d) :
    ∃ rest : String, n = d ++ "/" ++ rest ∧ '/' ∉ rest.data := by
  unfold dirname at h
  cases hs : strrchr n.data '/' with
  | none => rw [hs] at h; cases h
  | some i =>
    rw [hs] at h
    have hd : d = String.mk (n.data.take i) := (Option.some.inj h).symm
    obtain ⟨rest, hrest, hnot⟩ := strrchr_eq_some n.data '/' i hs
    refine ⟨String.mk rest, ?_, hnot⟩
    apply String.ext
    rw [hd]
    simp only [String.data_append]
    simpa using hrest

theorem join_path_ne_dash (dir fname : String) : join_path dir fname ≠ "-" := by
  intro h
  have hmem : '/' ∈ (join_path dir fname).data := by
    unfold join_path
    by_cases hl : dir.data.getLast? = some '/'
    · rw [if_pos hl]
      simp only [String.data_append, List.mem_append]
      exact Or.inl (List.mem_of_getLast?_eq_some hl)
    · rw [if_neg hl]
      simp [String.data_append]
  rw [h] at hmem
  simp at hmem

theorem Mem.srcfile_pop_frame (env : Env) (w : Mem.World) :
    (Mem.srcfile_pop env w).1.files = w.files
    ∧ (Mem.srcfile_pop env w).1.positions = w.positions := by
  cases hc : w.current_srcfile with
  | none => simp [Mem.srcfile_pop, hc]
  | some a =>
    cases hr : w.files[a]? with
    | none => simp [Mem.srcfile_pop, hc, hr]
    | some cur =>
      by_cases h : env.fclose w.trace cur.f = 0
      · simp [Mem.srcfile_pop, hc, hr, h]
      · simp [Mem.srcfile_pop, hc, hr, h]

theorem Mem.srcpos_string_congr (b : Bool) (pos : Option Nat) (w w2 : Mem.World)
    (hf : w2.files = w.files) (hp : w2.positions = w.positions) :
    Mem.srcpos_string b pos w2 = Mem.srcpos_string b pos w := by
  unfold Mem.srcpos_string Mem.srcpos_string_fname
  rw [hf, hp]

theorem Mem.srcpos_string_of_record_name (w : Mem.World) (a fa : Nat) (p : Mem.srcpos)
    (file : Mem.srcfile_state) (n : String) (hp : w.positions[a]? = some p)
    (hfile : p.file = some fa) (hrec : w.files[fa]? = some file)
    (hname : file.name = some n) :
    Mem.srcpos_string true (some a) w
      = .ok ((if n = "-" then "stdin" else n) ++ " " ++ Mem.srcpos_string_col_buf p) := by
  simp [Mem.srcpos_string, Mem.srcpos_string_fname, hp, hfile, hrec, hname]

/-! ## The include stack: theorems -/

/-- C1: for a file name other than "-", `srcfile_relative_open` calls `fopen` on the
file name unchanged when there is no current source file, or its `dir` is `NULL`, or the
file name begins with a slash, and on `join_path dir fname` otherwise; that path is also
the full name handed back when the open succeeds.  With current directory "/a/b" the
name "c/d.dtsi" is opened as "/a/b/c/d.dtsi", and "/x/y" is opened as "/x/y" in every
state. -/
theorem srcfile_relative_open_resolved_path (env : Env) (fname : String)
    (fullnamep : Bool) (w : World) (hname : fname ≠ "-") :
    (∃ path,
      (srcfile_relative_open env fname fullnamep w).1.trace = w.trace ++ [Event.fopen path]
      ∧ (∀ f, env.fopen w.trace path = some f →
          (srcfile_relative_open env fname true w).2 = .ok (f, some path))
      ∧ (w.current_srcfile = .NULL ∨ current_dir w = none ∨ fname.data.head? = some '/' →
          path = fname)
      ∧ (∀ dir, current_dir w = some dir → fname.data.head? ≠ some '/' →
          path = join_path dir fname))
    ∧ (current_dir w = some "/a/b" →
        (srcfile_relative_open env "c/d.dtsi" fullnamep w).1.trace
          = w.trace ++ [Event.fopen "/a/b/c/d.dtsi"])
    ∧ (srcfile_relative_open env "/x/y" fullnamep w).1.trace
        = w.trace ++ [Event.fopen "/x/y"] := by
  have hopen : ∀ (name : String) (b : Bool), name ≠ "-" →
      (srcfile_relative_open env name b w).1.trace
        = w.trace ++ [Event.fopen (fullname_of w name)] := by
    intro name b hne
    cases h : env.fopen w.trace (fullname_of w name) with
    | none => rw [srcfile_relative_open_of_fopen_none env name b w hne h]
    | some f => rw [srcfile_relative_open_of_fopen_some env name b w f hne h]
  refine ⟨⟨fullname_of w fname, hopen fname fullnamep hname, ?_, ?_, ?_⟩, ?_, ?_⟩
  · intro f hf
    rw [srcfile_relative_open_of_fopen_some env fname true w f hname hf]
    rfl
  · intro h
    unfold fullname_of
    unfold current_dir at h
    cases hc : w.current_srcfile with
    | NULL => rfl
    | ref f name dir prev =>
      rw [hc] at h
      cases dir with
      | none => rfl
      | some d =>
        rcases h with h | h | h
        · cases h
        · cases h
        · simp [h]
  · intro dir hdir hhead
    unfold fullname_of
    unfold current_dir at hdir
    cases hc : w.current_srcfile with
    | NULL => rw [hc] at hdir; cases hdir
    | ref f name d prev =>
      rw [hc] at hdir
      simp only at hdir
      subst hdir
      simp [hhead]
  · intro hdir
    rw [hopen "c/d.dtsi" fullnamep (by decide)]
    unfold fullname_of
    unfold current_dir at hdir
    cases hc : w.current_srcfile with
    | NULL => rw [hc] at hdir; cases hdir
    | ref f name d prev =>
      rw [hc] at hdir
      simp only at hdir
      subst hdir
      rfl
  · rw [hopen "/x/y" fullnamep (by decide)]
    unfold fullname_of
    cases w.current_srcfile with
    | NULL => rfl
    | ref f name d prev =>
      cases d with
      | none => rfl
      | some d => rfl

/-- Witness for C1: after "/a/b/x.dts" has been pushed, "c/d.dtsi" is opened as
"/a/b/c/d.dtsi". -/
theorem srcfile_relative_open_resolved_path_witness :
    ("c/d.dtsi" ≠ "-")
    ∧ current_dir (srcfile_push Env.simple "/a/b/x.dts" World.init).1 = some "/a/b"
    ∧ (srcfile_relative_open Env.simple "c/d.dtsi" true
        (srcfile_push Env.simple "/a/b/x.dts" World.init).1).1.trace
        = [Event.fopen "/a/b/x.dts", Event.fopen "/a/b/c/d.dtsi"] :=
  ⟨by decide, by decide,
    (srcfile_relative_open_resolved_path Env.simple "c/d.dtsi" true
      (srcfile_push Env.simple "/a/b/x.dts" World.init).1 (by decide)).2.1 (by decide)⟩

/-- C2: when the depth counter is 100, `srcfile_push` dies with "Includes nested too
deeply", has made no `fopen` call and has left the current source file as it was; when
the counter is below 100, `srcfile_push` does not die with that message. -/
theorem srcfile_push_depth_check (env : Env) (fname : String) (w : World) :
    (w.srcfile_depth = 100 →
      (srcfile_push env fname w).2 = .error (.die "Includes nested too deeply")
      ∧ (srcfile_push env fname w).1.trace = w.trace
      ∧ (srcfile_push env fname w).1.current_srcfile = w.current_srcfile)
    ∧ (w.srcfile_depth < 100 →
      (srcfile_push env fname w).2 ≠ .error (.die "Includes nested too deeply")) := by
  constructor
  · intro h
    rw [srcfile_push_too_deep env fname w (by omega)]
    exact ⟨rfl, rfl, rfl⟩
  · intro h
    by_cases hname : fname = "-"
    · subst hname
      rw [srcfile_push_dash env w h]
      intro hc
      cases hc
    · cases hf : env.fopen w.trace (fullname_of w fname) with
      | some f =>
        rw [srcfile_push_of_fopen_some env fname w f h hname hf]
        intro hc
        cases hc
      | none =>
        rw [srcfile_push_of_fopen_none env fname w h hname hf]
        intro hc
        have hmsg := Fault.die.inj (Except.error.inj hc)
        rw [String.append_assoc, String.append_assoc, String.append_assoc] at hmsg
        exact couldnt_open_ne_too_deep _ hmsg

/-- Witness for C2: with the counter at 100 and a file system in which every open
succeeds the push dies; with the counter at 99 and an empty file system it dies with
another message. -/
theorem srcfile_push_depth_check_witness :
    ((100 : Int) = 100 ∧ (99 : Int) < 100)
    ∧ (srcfile_push Env.simple "a.dts"
        { current_srcfile := .NULL, srcfile_depth := 100, trace := [] }).2
        = .error (.die "Includes nested too deeply")
    ∧ (srcfile_push Env.no_files "a.dts"
        { current_srcfile := .NULL, srcfile_depth := 99, trace := [] }).2
        ≠ .error (.die "Includes nested too deeply") :=
  ⟨by decide,
    ((srcfile_push_depth_check Env.simple "a.dts"
      { current_srcfile := .NULL, srcfile_depth := 100, trace := [] }).1 rfl).1,
    (srcfile_push_depth_check Env.no_files "a.dts"
      { current_srcfile := .NULL, srcfile_depth := 99, trace := [] }).2 (by decide)⟩

/-- C3: from the initial state, in an environment where every open and every close
succeeds, `n` calls of `srcfile_push` (for any `n` file names, `1 <= n <= 100`) followed
by `n` calls of `srcfile_pop` all return; the first `n - 1` pops return 1, the last pop
returns 0, and no source file is current afterwards. -/
theorem push_then_pop_balanced (env : Env) (henv : env.always_ok) (fnames : List String)
    (hlo : 1 ≤ fnames.length) (hhi : fnames.length ≤ 100) :
    ∃ w1 w2, push_all env fnames World.init = (w1, .ok ())
      ∧ pop_n env fnames.length w1
          = (w2, .ok (List.replicate (fnames.length - 1) 1 ++ [0]))
      ∧ w2.current_srcfile = .NULL := by
  obtain ⟨w1, h1, hlen, _⟩ := push_all_of_always_ok env henv fnames World.init
    (by simp only [World.init]; omega)
  have hchain : chain_len w1.current_srcfile = (fnames.length - 1) + 1 := by
    rw [hlen]
    simp only [World.init, chain_len]
    omega
  obtain ⟨w2, h2, hnull, _⟩ := pop_n_of_always_ok env henv (fnames.length - 1) w1 hchain
  have hn : fnames.length - 1 + 1 = fnames.length := by omega
  rw [hn] at h2
  exact ⟨w1, w2, h1, h2, hnull⟩

/-- Witness for C3: three nested files, the second relative to the first and the third
the standard input. -/
theorem push_then_pop_balanced_witness :
    Env.simple.always_ok
    ∧ 1 ≤ ["/a/b/x.dts", "c/d.dtsi", "-"].length
    ∧ ["/a/b/x.dts", "c/d.dtsi", "-"].length ≤ 100
    ∧ ∃ w1 w2, push_all Env.simple ["/a/b/x.dts", "c/d.dtsi", "-"] World.init = (w1, .ok ())
      ∧ pop_n Env.simple ["/a/b/x.dts", "c/d.dtsi", "-"].length w1
          = (w2, .ok (List.replicate (["/a/b/x.dts", "c/d.dtsi", "-"].length - 1) 1 ++ [0]))
      ∧ w2.current_srcfile = .NULL :=
  ⟨Env.simple_always_ok, by decide, by decide,
    push_then_pop_balanced Env.simple Env.simple_always_ok ["/a/b/x.dts", "c/d.dtsi", "-"]
      (by decide) (by decide)⟩

/-- C4, evaluated on the code: after one `srcfile_push` and one `srcfile_pop` from the
initial state no file is on the include stack, yet the depth counter is 1, because
`srcfile_pop` does not decrement it. -/
theorem srcfile_depth_after_push_pop :
    (srcfile_push Env.simple "a.dts" World.init).2 = .ok ()
    ∧ (srcfile_pop Env.simple (srcfile_push Env.simple "a.dts" World.init).1).2 = .ok 0
    ∧ chain_len
        (srcfile_pop Env.simple (srcfile_push Env.simple "a.dts" World.init).1).1.current_srcfile
        = 0
    ∧ (srcfile_pop Env.simple (srcfile_push Env.simple "a.dts" World.init).1).1.srcfile_depth
        = 1 := by
  decide

/-- C5: when a source file is current and its `fclose` succeeds, `srcfile_pop` makes the
file's `prev` the current source file and returns 1 if that is a file and 0 if it is
`NULL`; so after a successful `srcfile_push`, a `srcfile_pop` whose `fclose` succeeds
leaves the current source file that was there before the push. -/
theorem srcfile_pop_restores_prev (env : Env) :
    (∀ (w : World) (f : FILE) (name dir : Option String) (prev : srcfile_state_ptr),
      w.current_srcfile = .ref f name dir prev → env.fclose w.trace f = 0 →
        (srcfile_pop env w).1.current_srcfile = prev
        ∧ (srcfile_pop env w).2 = .ok (if prev = .NULL then 0 else 1))
    ∧ (∀ (fname : String) (w w1 : World),
      srcfile_push env fname w = (w1, .ok ()) → (∀ f, env.fclose w1.trace f = 0) →
        (srcfile_pop env w1).1.current_srcfile = w.current_srcfile
        ∧ (srcfile_pop env w1).2 = .ok (if w.current_srcfile = .NULL then 0 else 1)) := by
  constructor
  · intro w f name dir prev hcur hclose
    rw [srcfile_pop_of_fclose_ok env w f name dir prev hcur hclose]
    exact ⟨rfl, rfl⟩
  · intro fname w w1 hpush hclose
    obtain ⟨_, _, f, name, dir, hcur⟩ := srcfile_push_ok_shape env fname w w1 hpush
    rw [srcfile_pop_of_fclose_ok env w1 f name dir w.current_srcfile hcur (hclose f)]
    exact ⟨rfl, rfl⟩

/-- Witness for C5: "c/d.dtsi" is pushed on top of "/a/b/x.dts" and popped again. -/
theorem srcfile_pop_restores_prev_witness :
    srcfile_push Env.simple "c/d.dtsi" (srcfile_push Env.simple "/a/b/x.dts" World.init).1
      = ((srcfile_push Env.simple "c/d.dtsi"
          (srcfile_push Env.simple "/a/b/x.dts" World.init).1).1, .ok ())
    ∧ (∀ f, Env.simple.fclose (srcfile_push Env.simple "c/d.dtsi"
          (srcfile_push Env.simple "/a/b/x.dts" World.init).1).1.trace f = 0)
    ∧ (srcfile_pop Env.simple (srcfile_push Env.simple "c/d.dtsi"
          (srcfile_push Env.simple "/a/b/x.dts" World.init).1).1).1.current_srcfile
        = .ref (.stream 0) (some "/a/b/x.dts") (some "/a/b") .NULL
    ∧ (srcfile_pop Env.simple (srcfile_push Env.simple "c/d.dtsi"
          (srcfile_push Env.simple "/a/b/x.dts" World.init).1).1).2 = .ok 1 :=
  ⟨by decide, fun _ => rfl,
    (srcfile_pop_restores_prev Env.simple).2 "c/d.dtsi"
      (srcfile_push Env.simple "/a/b/x.dts" World.init).1
      (srcfile_push Env.simple "c/d.dtsi" (srcfile_push Env.simple "/a/b/x.dts" World.init).1).1
      (by decide) (fun _ => rfl)⟩

/-! ## Source positions: theorems -/

/-- C6, evaluated on the code: `srcpos_string` applied to `srcpos_empty` does not return
"<no-file> 0:0": it reads `pos->file->name` through the `NULL` file pointer of
`srcpos_empty`.  The fallback "<no-file>" is only reached for a file record whose
`name` is `NULL`. -/
theorem srcpos_string_empty_null_deref :
    srcpos_string true (some srcpos_empty) = .error .null_deref
    ∧ srcpos_string true (some srcpos_empty) ≠ .ok "<no-file> 0:0"
    ∧ srcpos_string true
        (some { srcpos_empty with file := .ref FILE.stdin none none .NULL })
        = .ok "<no-file> 0:0" := by
  decide

/-- C7: for a position whose file has a name `n` other than "-", whose first and last
line are equal and whose first and last column are equal, `srcpos_string` returns `n`,
a space, the line in decimal, a colon and the column in decimal; name "foo.dts", line 3
and column 1 give "foo.dts 3:1". -/
theorem srcpos_string_point (p : srcpos) (f : FILE) (n : String) (dir : Option String)
    (prev : srcfile_state_ptr) (hrange : p.in_range)
    (hfile : p.file = .ref f (some n) dir prev) (hn : n ≠ "-")
    (hl : p.first_line = p.last_line) (hc : p.first_column = p.last_column) :
    srcpos_string true (some p)
      = .ok (n ++ " " ++ fmt_d p.first_line ++ ":" ++ fmt_d p.first_column)
    ∧ srcpos_string true (some (srcpos.mk 3 1 3 1 (.ref f (some "foo.dts") dir prev)))
      = .ok "foo.dts 3:1" := by
  constructor
  · rw [srcpos_string_of_name p f n dir prev hfile, if_neg hn,
      col_buf_point p hrange hl hc]
    simp only [String.append_assoc]
  · rw [srcpos_string_of_name _ f "foo.dts" dir prev rfl]
    rfl

/-- Witness for C7: line 12, column 7 of "foo.dts". -/
theorem srcpos_string_point_witness :
    (srcpos.in_range (srcpos.mk 12 7 12 7 (.ref FILE.stdin (some "foo.dts") none .NULL))
      ∧ "foo.dts" ≠ "-" ∧ (12 : Int) = 12 ∧ (7 : Int) = 7)
    ∧ srcpos_string true (some (srcpos.mk 12 7 12 7 (.ref FILE.stdin (some "foo.dts") none .NULL)))
      = .ok "foo.dts 12:7" :=
  ⟨by decide,
    (srcpos_string_point (srcpos.mk 12 7 12 7 (.ref FILE.stdin (some "foo.dts") none .NULL))
      FILE.stdin "foo.dts" none .NULL (by decide) rfl (by decide) rfl rfl).1⟩

/-- C8: for a position whose file has a name `n` other than "-", whose first and last
line are equal and whose first and last column differ, `srcpos_string` returns `n`, a
space, the line, a colon, the first column, a dash and the last column, with no space
around the dash; name "foo.dts", line 3 and columns 1 and 5 give "foo.dts 3:1-5". -/
theorem srcpos_string_same_line (p : srcpos) (f : FILE) (n : String) (dir : Option String)
    (prev : srcfile_state_ptr) (hrange : p.in_range)
    (hfile : p.file = .ref f (some n) dir prev) (hn : n ≠ "-")
    (hl : p.first_line = p.last_line) (hc : p.first_column ≠ p.last_column) :
    srcpos_string true (some p)
      = .ok (n ++ " " ++ fmt_d p.first_line ++ ":" ++ fmt_d p.first_column ++ "-"
          ++ fmt_d p.last_column)
    ∧ srcpos_string true (some (srcpos.mk 3 1 3 5 (.ref f (some "foo.dts") dir prev)))
      = .ok "foo.dts 3:1-5" := by
  constructor
  · rw [srcpos_string_of_name p f n dir prev hfile, if_neg hn,
      col_buf_same_line p hrange hl hc]
    simp only [String.append_assoc]
  · rw [srcpos_string_of_name _ f "foo.dts" dir prev rfl]
    rfl

/-- Witness for C8: line 12, columns 7 to 19 of "foo.dts". -/
theorem srcpos_string_same_line_witness :
    (srcpos.in_range (srcpos.mk 12 7 12 19 (.ref FILE.stdin (some "foo.dts") none .NULL))
      ∧ "foo.dts" ≠ "-" ∧ (12 : Int) = 12 ∧ (7 : Int) ≠ 19)
    ∧ srcpos_string true (some (srcpos.mk 12 7 12 19 (.ref FILE.stdin (some "foo.dts") none .NULL)))
      = .ok "foo.dts 12:7-19" :=
  ⟨by decide,
    (srcpos_string_same_line (srcpos.mk 12 7 12 19 (.ref FILE.stdin (some "foo.dts") none .NULL))
      FILE.stdin "foo.dts" none .NULL (by decide) rfl (by decide) rfl (by decide)).1⟩

/-- C9: for a position whose file has a name `n` other than "-" and whose first and last
line differ, `srcpos_string` returns `n`, a space, first line, colon, first column,
" - ", last line, colon, last column, whatever the columns are (equal columns
included); name "foo.dts", first 3:1 and last 5:4 give "foo.dts 3:1 - 5:4". -/
theorem srcpos_string_multi_line (p : srcpos) (f : FILE) (n : String)
    (dir : Option String) (prev : srcfile_state_ptr) (hrange : p.in_range)
    (hfile : p.file = .ref f (some n) dir prev) (hn : n ≠ "-")
    (hl : p.first_line ≠ p.last_line) :
    srcpos_string true (some p)
      = .ok (n ++ " " ++ fmt_d p.first_line ++ ":" ++ fmt_d p.first_column ++ " - "
          ++ fmt_d p.last_line ++ ":" ++ fmt_d p.last_column)
    ∧ srcpos_string true (some (srcpos.mk 3 1 5 4 (.ref f (some "foo.dts") dir prev)))
      = .ok "foo.dts 3:1 - 5:4" := by
  constructor
  · rw [srcpos_string_of_name p f n dir prev hfile, if_neg hn,
      col_buf_multi_line p hrange hl]
    simp only [String.append_assoc]
  · rw [srcpos_string_of_name _ f "foo.dts" dir prev rfl]
    rfl

/-- Witness for C9: lines 12 to 14 with the same column 7 at both ends. -/
theorem srcpos_string_multi_line_witness :
    (srcpos.in_range (srcpos.mk 12 7 14 7 (.ref FILE.stdin (some "foo.dts") none .NULL))
      ∧ "foo.dts" ≠ "-" ∧ (12 : Int) ≠ 14)
    ∧ srcpos_string true (some (srcpos.mk 12 7 14 7 (.ref FILE.stdin (some "foo.dts") none .NULL)))
      = .ok "foo.dts 12:7 - 14:7" :=
  ⟨by decide,
    (srcpos_string_multi_line (srcpos.mk 12 7 14 7 (.ref FILE.stdin (some "foo.dts") none .NULL))
      FILE.stdin "foo.dts" none .NULL (by decide) rfl (by decide) (by decide)).1⟩

/-- C10: for a position whose file is present with name exactly "-", `srcpos_string`
chooses the file-name part "stdin" and returns "stdin " followed by the line/column
text; for every other present name the file-name part is the name unchanged. -/
theorem srcpos_string_stdin_name (p : srcpos) (f : FILE) (n : String)
    (dir : Option String) (prev : srcfile_state_ptr)
    (hfile : p.file = .ref f (some n) dir prev) :
    (n = "-" →
      srcpos_string_fname (some p) = .ok "stdin"
      ∧ srcpos_string true (some p) = .ok ("stdin " ++ srcpos_string_col_buf p))
    ∧ (n ≠ "-" →
      srcpos_string_fname (some p) = .ok n
      ∧ srcpos_string true (some p) = .ok (n ++ " " ++ srcpos_string_col_buf p)) := by
  constructor
  · intro h
    subst h
    rw [srcpos_string_of_name p f "-" dir prev hfile]
    refine ⟨by simp [srcpos_string_fname, hfile], ?_⟩
    rw [if_pos rfl]
    have h2 : "stdin" ++ " " = "stdin " := by decide
    rw [h2]
  · intro h
    rw [srcpos_string_of_name p f n dir prev hfile]
    refine ⟨by simp [srcpos_string_fname, hfile, h], ?_⟩
    rw [if_neg h]

/-- Witness for C10: a position in a file record named "-". -/
theorem srcpos_string_stdin_name_witness :
    ("-" = "-")
    ∧ srcpos_string_fname (some (srcpos.mk 3 1 5 4 (.ref FILE.stdin (some "-") none .NULL))) = .ok "stdin"
    ∧ srcpos_string true (some (srcpos.mk 3 1 5 4 (.ref FILE.stdin (some "-") none .NULL)))
      = .ok "stdin 3:1 - 5:4" :=
  ⟨rfl,
    (srcpos_string_stdin_name (srcpos.mk 3 1 5 4 (.ref FILE.stdin (some "-") none .NULL))
      FILE.stdin "-" none .NULL rfl).1 rfl⟩

/-! ## Further theorems on the include stack -/

/-- C12: in every state and every environment, `srcfile_relative_open` called with "-"
returns the standard input with full name "<stdin>", makes no `fopen` call (the state,
trace included, is unchanged) and does not fail. -/
theorem srcfile_relative_open_stdin (env : Env) (fullnamep : Bool) (w : World) :
    srcfile_relative_open env "-" fullnamep w
      = (w, .ok (FILE.stdin, if fullnamep then some "<stdin>" else none))
    ∧ (srcfile_relative_open env "-" fullnamep w).1.trace = w.trace
    ∧ (srcfile_relative_open env "-" true w).2 = .ok (FILE.stdin, some "<stdin>") := by
  rw [srcfile_relative_open_dash env fullnamep w, srcfile_relative_open_dash env true w]
  exact ⟨rfl, rfl, rfl⟩

/-- C15: for a file name other than "-", `srcfile_relative_open` ends in a fault exactly
when `fopen` of the resolved path fails, and then it dies with the message
"Couldn't open" followed by the file name as the caller passed it, not the resolved
path. -/
theorem srcfile_relative_open_fails_iff (env : Env) (fname : String) (fullnamep : Bool)
    (w : World) (hname : fname ≠ "-") :
    ((∃ e, (srcfile_relative_open env fname fullnamep w).2 = .error e)
      ↔ env.fopen w.trace (fullname_of w fname) = none)
    ∧ (env.fopen w.trace (fullname_of w fname) = none →
        (srcfile_relative_open env fname fullnamep w).2
          = .error (.die ("Couldn't open \"" ++ fname ++ "\": "
              ++ env.strerror_errno (w.trace ++ [Event.fopen (fullname_of w fname)])
              ++ "\n"))) := by
  constructor
  · constructor
    · rintro ⟨e, he⟩
      cases hf : env.fopen w.trace (fullname_of w fname) with
      | none => rfl
      | some f =>
        rw [srcfile_relative_open_of_fopen_some env fname fullnamep w f hname hf] at he
        cases he
    · intro hf
      rw [srcfile_relative_open_of_fopen_none env fname fullnamep w hname hf]
      exact ⟨_, rfl⟩
  · intro hf
    rw [srcfile_relative_open_of_fopen_none env fname fullnamep w hname hf]

/-- Witness for C15: with "/a/b/x.dts" current and an empty file system, "c/d.dtsi" is
looked for at "/a/b/c/d.dtsi" and the message names "c/d.dtsi". -/
theorem srcfile_relative_open_fails_iff_witness :
    ("c/d.dtsi" ≠ "-"
      ∧ Env.no_files.fopen World.in_a_b.trace (fullname_of World.in_a_b "c/d.dtsi") = none
      ∧ fullname_of World.in_a_b "c/d.dtsi" = "/a/b/c/d.dtsi")
    ∧ (srcfile_relative_open Env.no_files "c/d.dtsi" true World.in_a_b).2
        = .error (.die "Couldn't open \"c/d.dtsi\": No such file or directory\n") :=
  ⟨by decide,
    (srcfile_relative_open_fails_iff Env.no_files "c/d.dtsi" true World.in_a_b
      (by decide)).2 rfl⟩

/-- C16: `srcfile_pop` called with no current source file fails its assertion and leaves
the state, trace included, as it was; with a current source file the assertion does not
fail. -/
theorem srcfile_pop_assertion (env : Env) (w : World) :
    (w.current_srcfile = .NULL →
      srcfile_pop env w = (w, .error (.assert_failed "srcfile")))
    ∧ (w.current_srcfile ≠ .NULL →
      ∀ e, (srcfile_pop env w).2 ≠ .error (.assert_failed e)) := by
  constructor
  · intro h
    unfold srcfile_pop
    rw [h]
  · intro h e
    unfold srcfile_pop
    cases hc : w.current_srcfile with
    | NULL => exact absurd hc h
    | ref f name dir prev =>
      by_cases hcl : env.fclose w.trace f = 0
      · simp [hcl]
      · simp [hcl]

/-- Witness for C16: a pop in the initial state, and a pop with "/a/b/x.dts" current. -/
theorem srcfile_pop_assertion_witness :
    (World.init.current_srcfile = .NULL ∧ World.in_a_b.current_srcfile ≠ .NULL)
    ∧ srcfile_pop Env.simple World.init = (World.init, .error (.assert_failed "srcfile"))
    ∧ (srcfile_pop Env.simple World.in_a_b).2 ≠ .error (.assert_failed "srcfile") :=
  ⟨by decide, (srcfile_pop_assertion Env.simple World.init).1 rfl,
    (srcfile_pop_assertion Env.simple World.in_a_b).2 (by decide) "srcfile"⟩

/-- C17: after a successful `srcfile_push` the current source file has as `name` the
resolved path ("<stdin>" for "-"), as `prev` the source file that was current before,
and as `dir` the value of `dirname` on that name: `NULL` exactly when the name has no
slash, and otherwise the text before the last slash, so that the name is `dir`, a
slash and a remainder without slash; `dirname` of "/foo" is the empty string. -/
theorem srcfile_push_record (env : Env) (fname : String) (w w1 : World)
    (h : srcfile_push env fname w = (w1, .ok ())) :
    (∃ f n, w1.current_srcfile = .ref f (some n) (dirname n) w.current_srcfile
      ∧ n = (if fname = "-" then "<stdin>" else fullname_of w fname)
      ∧ (dirname n = none ↔ '/' ∉ n.data)
      ∧ (∀ d, dirname n = some d → ∃ rest : String, n = d ++ "/" ++ rest ∧ '/' ∉ rest.data))
    ∧ dirname "/foo" = some "" := by
  refine ⟨?_, by decide⟩
  have hlt := (srcfile_push_ok_shape env fname w w1 h).1
  by_cases hname : fname = "-"
  · subst hname
    rw [srcfile_push_dash env w hlt] at h
    have hw := (Prod.mk.inj h).1
    subst hw
    exact ⟨FILE.stdin, "<stdin>", rfl, rfl, dirname_eq_none_iff _,
      fun d hd => dirname_eq_some _ d hd⟩
  · cases hf : env.fopen w.trace (fullname_of w fname) with
    | none =>
      rw [srcfile_push_of_fopen_none env fname w hlt hname hf] at h
      cases (Prod.mk.inj h).2
    | some f =>
      rw [srcfile_push_of_fopen_some env fname w f hlt hname hf] at h
      have hw := (Prod.mk.inj h).1
      subst hw
      exact ⟨f, fullname_of w fname, rfl, by rw [if_neg hname], dirname_eq_none_iff _,
        fun d hd => dirname_eq_some _ d hd⟩

/-- Witness for C17: "c/d.dtsi" pushed while "/a/b/x.dts" is current. -/
theorem srcfile_push_record_witness :
    srcfile_push Env.simple "c/d.dtsi" World.in_a_b
      = ((srcfile_push Env.simple "c/d.dtsi" World.in_a_b).1, .ok ())
    ∧ (srcfile_push Env.simple "c/d.dtsi" World.in_a_b).1.current_srcfile
      = .ref (.stream 1) (some "/a/b/c/d.dtsi") (some "/a/b/c") World.in_a_b.current_srcfile
    ∧ ∃ f n, (srcfile_push Env.simple "c/d.dtsi" World.in_a_b).1.current_srcfile
          = .ref f (some n) (dirname n) World.in_a_b.current_srcfile
      ∧ n = (if "c/d.dtsi" = "-" then "<stdin>" else fullname_of World.in_a_b "c/d.dtsi")
      ∧ (dirname n = none ↔ '/' ∉ n.data)
      ∧ (∀ d, dirname n = some d → ∃ rest : String, n = d ++ "/" ++ rest ∧ '/' ∉ rest.data) :=
  ⟨by decide, by decide,
    (srcfile_push_record Env.simple "c/d.dtsi" World.in_a_b
      (srcfile_push Env.simple "c/d.dtsi" World.in_a_b).1 (by decide)).1⟩

/-- C19: `srcfile_pop` leaves the depth counter as it is and `srcfile_push` adds one to
it, whether it succeeds or dies; so after any sequence of calls that ran without fault
from the initial state the counter is the number of pushes made, that number is at most
100, and once it is 100 every further `srcfile_push` dies with "Includes nested too
deeply", whatever the current source file is. -/
theorem srcfile_depth_never_decreases (env : Env) :
    (∀ w, (srcfile_pop env w).1.srcfile_depth = w.srcfile_depth)
    ∧ (∀ fname w, (srcfile_push env fname w).1.srcfile_depth = w.srcfile_depth + 1)
    ∧ (∀ calls w1, run_calls env calls World.init = (w1, .ok ()) →
        count_push calls ≤ 100
        ∧ w1.srcfile_depth = count_push calls
        ∧ (count_push calls = 100 → ∀ fname,
            (srcfile_push env fname w1).2 = .error (.die "Includes nested too deeply")
            ∧ (srcfile_push env fname w1).1.current_srcfile = w1.current_srcfile
            ∧ (srcfile_push env fname w1).1.trace = w1.trace)) := by
  refine ⟨srcfile_pop_depth env, srcfile_push_depth env, ?_⟩
  intro calls w1 h
  obtain ⟨h1, h2⟩ := run_calls_depth env calls World.init w1 h
  simp only [World.init, zero_add] at h1 h2
  refine ⟨?_, h1, ?_⟩
  · by_cases hc : 0 < count_push calls
    · have := h2 hc
      omega
    · omega
  · intro h100 fname
    rw [srcfile_push_too_deep env fname w1 (by rw [h1, h100]; decide)]
    exact ⟨rfl, rfl, rfl⟩

set_option maxRecDepth 1000000 in
/-- Witness for C19: after one hundred push/pop pairs no source file is current and the
next `srcfile_push` dies with "Includes nested too deeply". -/
theorem srcfile_depth_never_decreases_witness :
    (run_calls Env.simple hundred_push_pop World.init
        = ((run_calls Env.simple hundred_push_pop World.init).1, .ok ())
      ∧ count_push hundred_push_pop = 100
      ∧ (run_calls Env.simple hundred_push_pop World.init).1.current_srcfile = .NULL)
    ∧ (srcfile_push Env.simple "b.dts"
        (run_calls Env.simple hundred_push_pop World.init).1).2
        = .error (.die "Includes nested too deeply") :=
  ⟨by decide,
    (((srcfile_depth_never_decreases Env.simple).2.2 hundred_push_pop
      (run_calls Env.simple hundred_push_pop World.init).1 (by decide)).2.2
      (by decide) "b.dts").1⟩

/-- C20: after a successful `srcfile_push` of "-" the current source file has name
"<stdin>" and `dir` `NULL`; `srcpos_string` renders every position whose file is that
record with the file-name part "<stdin>"; while it is current `srcfile_relative_open`
opens every file name other than "-" unchanged; and no successful `srcfile_push` makes
a record whose name is "-". -/
theorem srcfile_push_stdin (env : Env) (w w1 : World)
    (h : srcfile_push env "-" w = (w1, .ok ())) :
    w1.current_srcfile = .ref FILE.stdin (some "<stdin>") none w.current_srcfile
    ∧ (∀ p : srcpos, p.file = w1.current_srcfile →
        srcpos_string_fname (some p) = .ok "<stdin>"
        ∧ srcpos_string true (some p) = .ok ("<stdin>" ++ " " ++ srcpos_string_col_buf p))
    ∧ (∀ fname b, fname ≠ "-" →
        (srcfile_relative_open env fname b w1).1.trace = w1.trace ++ [Event.fopen fname]
        ∧ ∀ f, env.fopen w1.trace fname = some f →
            (srcfile_relative_open env fname true w1).2 = .ok (f, some fname))
    ∧ (∀ fname0 w0 w2, srcfile_push env fname0 w0 = (w2, .ok ()) →
        ∀ f name dir prev, w2.current_srcfile = .ref f name dir prev → name ≠ some "-") := by
  have hlt := (srcfile_push_ok_shape env "-" w w1 h).1
  rw [srcfile_push_dash env w hlt] at h
  have hw := (Prod.mk.inj h).1
  subst hw
  refine ⟨rfl, ?_, ?_, ?_⟩
  · intro p hp
    simp only at hp
    have hs := srcpos_string_of_name p FILE.stdin "<stdin>" none w.current_srcfile hp
    rw [if_neg (by decide)] at hs
    exact ⟨by simp [srcpos_string_fname, hp], hs⟩
  · intro fname b hname
    have hfull : fullname_of
        { current_srcfile := .ref FILE.stdin (some "<stdin>") none w.current_srcfile
          srcfile_depth := w.srcfile_depth + 1
          trace := w.trace } fname = fname := rfl
    constructor
    · cases hf : env.fopen w.trace fname with
      | none =>
        rw [srcfile_relative_open_of_fopen_none env fname b _ hname (by rw [hfull]; exact hf),
          hfull]
      | some f =>
        rw [srcfile_relative_open_of_fopen_some env fname b _ f hname
          (by rw [hfull]; exact hf), hfull]
    · intro f hf
      rw [srcfile_relative_open_of_fopen_some env fname true _ f hname
        (by rw [hfull]; exact hf), hfull]
      rfl
  · intro fname0 w0 w2 h2 f name dir prev hcur
    have hlt0 := (srcfile_push_ok_shape env fname0 w0 w2 h2).1
    by_cases hname : fname0 = "-"
    · subst hname
      rw [srcfile_push_dash env w0 hlt0] at h2
      have hw := (Prod.mk.inj h2).1
      subst hw
      simp only [srcfile_state_ptr.ref.injEq] at hcur
      rw [← hcur.2.1]
      decide
    · cases hf : env.fopen w0.trace (fullname_of w0 fname0) with
      | none =>
        rw [srcfile_push_of_fopen_none env fname0 w0 hlt0 hname hf] at h2
        cases (Prod.mk.inj h2).2
      | some f0 =>
        rw [srcfile_push_of_fopen_some env fname0 w0 f0 hlt0 hname hf] at h2
        have hw := (Prod.mk.inj h2).1
        subst hw
        simp only [srcfile_state_ptr.ref.injEq] at hcur
        rw [← hcur.2.1]
        intro hc
        have hc2 : fullname_of w0 fname0 = "-" := Option.some.inj hc
        unfold fullname_of at hc2
        cases hcur0 : w0.current_srcfile with
        | NULL => rw [hcur0] at hc2; exact hname hc2
        | ref g nm d pv =>
          rw [hcur0] at hc2
          cases d with
          | none => exact hname hc2
          | some dd =>
            simp only at hc2
            by_cases hh : fname0.data.head? = some '/'
            · rw [if_pos hh] at hc2; exact hname hc2
            · rw [if_neg hh] at hc2; exact join_path_ne_dash dd fname0 hc2

/-- Witness for C20: "-" pushed while "/a/b/x.dts" is current, and a position in it. -/
theorem srcfile_push_stdin_witness :
    srcfile_push Env.simple "-" World.in_a_b
      = ((srcfile_push Env.simple "-" World.in_a_b).1, .ok ())
    ∧ (srcfile_push Env.simple "-" World.in_a_b).1.current_srcfile
      = .ref FILE.stdin (some "<stdin>") none World.in_a_b.current_srcfile
    ∧ srcpos_string true (some (srcpos.mk 3 1 5 4
        (srcfile_push Env.simple "-" World.in_a_b).1.current_srcfile))
      = .ok "<stdin> 3:1 - 5:4" :=
  ⟨by decide,
    (srcfile_push_stdin Env.simple World.in_a_b (srcfile_push Env.simple "-" World.in_a_b).1
      (by decide)).1,
    ((srcfile_push_stdin Env.simple World.in_a_b (srcfile_push Env.simple "-" World.in_a_b).1
      (by decide)).2.1 _ rfl).2⟩

/-! ## Further theorems on source positions -/

/-- C11, evaluated on the code: with a `NULL` position `srcpos_string` does choose the
file-name part "<no-file>", but then reads `pos->first_line` through the `NULL` pointer
and returns nothing. -/
theorem srcpos_string_null_pos :
    srcpos_string_fname none = .ok "<no-file>"
    ∧ srcpos_string true none = .error .null_deref
    ∧ srcpos_string false none = .error .null_deref := by
  decide

/-- C18: for a position whose four line and column fields are 32-bit `int` values, the
text left in `col_buf` is at most 49 characters long and is the whole formatted text in
each of the three branches (nothing is cut off by the 100-byte buffer); 49 characters
are reached. -/
theorem col_buf_never_truncated (p : srcpos) (h : p.in_range) :
    (srcpos_string_col_buf p).length ≤ 49
    ∧ (p.first_line = p.last_line → p.first_column = p.last_column →
        srcpos_string_col_buf p = fmt_d p.first_line ++ ":" ++ fmt_d p.first_column)
    ∧ (p.first_line = p.last_line → p.first_column ≠ p.last_column →
        srcpos_string_col_buf p
          = fmt_d p.first_line ++ ":" ++ fmt_d p.first_column ++ "-" ++ fmt_d p.last_column)
    ∧ (p.first_line ≠ p.last_line →
        srcpos_string_col_buf p
          = fmt_d p.first_line ++ ":" ++ fmt_d p.first_column ++ " - "
            ++ fmt_d p.last_line ++ ":" ++ fmt_d p.last_column)
    ∧ (srcpos_string_col_buf
        (srcpos.mk (-2147483648) (-2147483648) (-2147483647) (-2147483648) .NULL)).length
        = 49 := by
  have b1 := fmt_d_length _ h.1
  have b2 := fmt_d_length _ h.2.1
  have b3 := fmt_d_length _ h.2.2.1
  have b4 := fmt_d_length _ h.2.2.2
  have e1 : ":".length = 1 := rfl
  have e2 : "-".length = 1 := rfl
  have e3 : " - ".length = 3 := rfl
  refine ⟨?_, col_buf_point p h, col_buf_same_line p h, col_buf_multi_line p h, by decide⟩
  by_cases hl : p.first_line = p.last_line
  · by_cases hc : p.first_column = p.last_column
    · rw [col_buf_point p h hl hc]
      simp only [String.length_append]
      omega
    · rw [col_buf_same_line p h hl hc]
      simp only [String.length_append]
      omega
  · rw [col_buf_multi_line p h hl]
    simp only [String.length_append]
    omega

/-- Witness for C18: the most negative values on two different lines. -/
theorem col_buf_never_truncated_witness :
    srcpos.in_range
      (srcpos.mk (-2147483648) (-2147483648) (-2147483647) (-2147483648) .NULL)
    ∧ (srcpos_string_col_buf
        (srcpos.mk (-2147483648) (-2147483648) (-2147483647) (-2147483648) .NULL)).length
        ≤ 49 :=
  ⟨by decide,
    (col_buf_never_truncated
      (srcpos.mk (-2147483648) (-2147483648) (-2147483647) (-2147483648) .NULL)
      (by decide)).1⟩

/-! ## Theorems on the memory-level embedding -/

/-- C13: `srcfile_pop` writes no file record and no position (it changes only
`current_srcfile` and closes the handle), and `srcpos_string` reads only file records
and positions, not `current_srcfile` or `srcfile_depth`; so `srcpos_string` gives the
same result after the pop as before it, and for a position recorded in the file that
was current, whose record has a name, that result is the rendered text. -/
theorem srcpos_string_unchanged_by_pop (env : Env) (w : Mem.World) :
    ((Mem.srcfile_pop env w).1.files = w.files
      ∧ (Mem.srcfile_pop env w).1.positions = w.positions)
    ∧ (∀ b pos (w2 : Mem.World), w2.files = w.files → w2.positions = w.positions →
        Mem.srcpos_string b pos w2 = Mem.srcpos_string b pos w)
    ∧ (∀ b pos, Mem.srcpos_string b pos (Mem.srcfile_pop env w).1
        = Mem.srcpos_string b pos w)
    ∧ (∀ a fa p file n, w.positions[a]? = some p → p.file = w.current_srcfile →
        w.current_srcfile = some fa → w.files[fa]? = some file → file.name = some n →
        Mem.srcpos_string true (some a) (Mem.srcfile_pop env w).1
          = .ok ((if n = "-" then "stdin" else n) ++ " " ++ Mem.srcpos_string_col_buf p)
        ∧ Mem.srcpos_string true (some a) w
          = .ok ((if n = "-" then "stdin" else n) ++ " " ++ Mem.srcpos_string_col_buf p)) := by
  have hframe := Mem.srcfile_pop_frame env w
  refine ⟨hframe, fun b pos w2 hf hp => Mem.srcpos_string_congr b pos w w2 hf hp,
    fun b pos => Mem.srcpos_string_congr b pos w _ hframe.1 hframe.2, ?_⟩
  intro a fa p file n hp hfile hcur hrec hname
  rw [Mem.srcpos_string_congr true (some a) w _ hframe.1 hframe.2]
  have := Mem.srcpos_string_of_record_name w a fa p file n hp (hfile.trans hcur) hrec hname
  exact ⟨this, this⟩

/-- Witness for C13: the position recorded in "foo.dts" renders as "foo.dts 3:1-5"
after "foo.dts" has been popped. -/
theorem srcpos_string_unchanged_by_pop_witness :
    (Mem.World.sample.positions[0]? = some (Mem.srcpos.mk 3 1 3 5 (some 0))
      ∧ (Mem.srcpos.mk 3 1 3 5 (some 0)).file = Mem.World.sample.current_srcfile
      ∧ (Mem.srcfile_pop Env.simple Mem.World.sample).2 = .ok 0
      ∧ (Mem.srcfile_pop Env.simple Mem.World.sample).1.current_srcfile = none)
    ∧ Mem.srcpos_string true (some 0) (Mem.srcfile_pop Env.simple Mem.World.sample).1
        = .ok "foo.dts 3:1-5" :=
  ⟨by decide,
    ((srcpos_string_unchanged_by_pop Env.simple Mem.World.sample).2.2.2 0 0
      (Mem.srcpos.mk 3 1 3 5 (some 0))
      (Mem.srcfile_state.mk (.stream 0) (some "foo.dts") none none) "foo.dts"
      rfl rfl rfl rfl rfl).1⟩

/-- C14: for a pointer to a position, `srcpos_copy` returns the address of a new object
whose five fields equal those of the position, leaves the position and every other
object as they were, and the new object is a different one: whatever is stored in the
copy afterwards, the position keeps its value. -/
theorem srcpos_copy_independent (w : Mem.World) (a : Nat) (p : Mem.srcpos)
    (h : w.positions[a]? = some p) :
    ∃ w1 c, Mem.srcpos_copy (some a) w = (w1, .ok c)
      ∧ w1.positions[c]? = some p
      ∧ w1.positions[a]? = some p
      ∧ c ≠ a
      ∧ (∀ (i : Nat) (q : Mem.srcpos), w.positions[i]? = some q → w1.positions[i]? = some q)
      ∧ (w1.files = w.files ∧ w1.current_srcfile = w.current_srcfile
          ∧ w1.srcfile_depth = w.srcfile_depth ∧ w1.trace = w.trace)
      ∧ (∀ q, (Mem.store_srcpos c q w1).positions[c]? = some q
          ∧ (Mem.store_srcpos c q w1).positions[a]? = some p) := by
  obtain ⟨hlt, _⟩ := List.getElem?_eq_some.mp h
  have hkeep : ∀ (i : Nat) (q : Mem.srcpos), w.positions[i]? = some q → (w.positions ++ [p])[i]? = some q := by
    intro i q hq
    obtain ⟨hi, _⟩ := List.getElem?_eq_some.mp hq
    rw [List.getElem?_append_left hi]
    exact hq
  refine ⟨{ w with positions := w.positions ++ [p] }, w.positions.length, ?_, ?_, ?_, ?_,
    ?_, ⟨rfl, rfl, rfl, rfl⟩, ?_⟩
  · simp [Mem.srcpos_copy, h]
  · exact List.getElem?_concat_length _ _
  · exact hkeep a p h
  · omega
  · exact hkeep
  · intro q
    constructor
    · simp [Mem.store_srcpos]
    · simp only [Mem.store_srcpos]
      rw [List.getElem?_set_ne (by omega)]
      exact hkeep a p h

/-- Witness for C14: the position at address 0 is copied to address 1, and storing
another value in the copy leaves address 0 as it was. -/
theorem srcpos_copy_independent_witness :
    Mem.World.sample.positions[0]? = some (Mem.srcpos.mk 3 1 3 5 (some 0))
    ∧ (Mem.srcpos_copy (some 0) Mem.World.sample).2 = .ok 1
    ∧ (Mem.store_srcpos 1 (Mem.srcpos.mk 7 7 7 7 none)
        (Mem.srcpos_copy (some 0) Mem.World.sample).1).positions
        = [Mem.srcpos.mk 3 1 3 5 (some 0), Mem.srcpos.mk 7 7 7 7 none]
    ∧ ∃ w1 c, Mem.srcpos_copy (some 0) Mem.World.sample = (w1, .ok c)
      ∧ w1.positions[c]? = some (Mem.srcpos.mk 3 1 3 5 (some 0))
      ∧ w1.positions[0]? = some (Mem.srcpos.mk 3 1 3 5 (some 0))
      ∧ c ≠ 0
      ∧ (∀ (i : Nat) (q : Mem.srcpos),
          Mem.World.sample.positions[i]? = some q → w1.positions[i]? = some q)
      ∧ (w1.files = Mem.World.sample.files
          ∧ w1.current_srcfile = Mem.World.sample.current_srcfile
          ∧ w1.srcfile_depth = Mem.World.sample.srcfile_depth
          ∧ w1.trace = Mem.World.sample.trace)
      ∧ (∀ q, (Mem.store_srcpos c q w1).positions[c]? = some q
          ∧ (Mem.store_srcpos c q w1).positions[0]? = some (Mem.srcpos.mk 3 1 3 5 (some 0))) :=
  ⟨by decide, by decide, by decide,
    srcpos_copy_independent Mem.World.sample 0 (Mem.srcpos.mk 3 1 3 5 (some 0)) rfl⟩

end Srcpos
